import Mathlib

/-!
# Verification of the machtool profile-to-revolved-mesh geometry engine

Shallow embedding of `mesh.py` (`Patch`, `Mesh`, `RevolvedMesh`) and
`bbox.py` (`BBox`) over exact rationals.  Python floats are modelled as `ℚ`
(exact arithmetic; float rounding is out of scope).  The few primitives whose
exact values are irrational (Qt's `QVector3D.normal` / `normalize`, the
`sin`/`cos` ring cache, `sqrt`, and the angle computations of the `Arc` class,
whose source file `arc.py` is not in the repository snapshot) are model
parameters collected in a `Prims` structure; every theorem that depends on
their values either quantifies over them or assumes exactly the properties
the real primitives have at the relevant inputs.

Comparisons of *normalized* dot products against a nonnegative threshold are
embedded in the algebraically equivalent squared form
`|û·v̂| ≤ t  ↔  (u·v)² ≤ t²·|u|²·|v|²` (valid for `t ≥ 0`, and also when a
vector is zero, since Qt's `normalized()` maps the zero vector to itself),
which keeps every definition computable over `ℚ`.
-/

deriving instance DecidableEq for Except

/-- 3-component vector, modelling a Python `[x, y, z]` list of floats. -/
abbrev Vec3 : Type := ℚ × ℚ × ℚ

/-- 2-component vector, for the 2D profile-plane tangency tests. -/
abbrev Vec2 : Type := ℚ × ℚ

namespace MT

/-- numpy's default `atol` for `allclose` (1e-08). -/
def npAtol : ℚ := 1 / 100000000

/-- numpy's default `rtol` for `allclose` (1e-05). -/
def npRtol : ℚ := 1 / 100000

/-- Scalar `np.allclose(a, b)` with default tolerances:
`|a - b| <= atol + rtol * |b|`. -/
def allcloseQ (a b : ℚ) : Bool := |a - b| ≤ npAtol + npRtol * |b|

/-- `np.allclose(p1, p2)` on 3-vectors: componentwise `allcloseQ`. -/
def allclose3 (p q : Vec3) : Bool :=
  allcloseQ p.1 q.1 && allcloseQ p.2.1 q.2.1 && allcloseQ p.2.2 q.2.2

/-- Elementwise `p1 < p2` on numpy 3-vectors, reduced with `np.all`
(`bbox.py` line 40; every in-repo construction passes numpy arrays, for
which `<` is elementwise). -/
def ltAll3 (p q : Vec3) : Bool :=
  decide (p.1 < q.1) && decide (p.2.1 < q.2.1) && decide (p.2.2 < q.2.2)

/-- The errors the `BBox` code can raise: the two `BBoxException`s of
`BBox.__init__`, and numpy's `ValueError` from `np.min`/`np.max` applied to
an empty vertex list in `BBox.fromVertices`. -/
inductive BBoxErr : Type
  | zeroSize   -- BBoxException('box has zero size')
  | badOrder   -- BBoxException('p1 must be < p2')
  | emptyValueError -- numpy ValueError: zero-size array to reduction
  deriving DecidableEq, Repr

/-- The state of a successfully constructed `BBox`: the `_coords` pair and
the cached `_center` (`bbox.py` lines 44-45). -/
structure BBox : Type where
  p1 : Vec3
  p2 : Vec3
  center : Vec3
  deriving DecidableEq, Repr

/-- `BBox.__init__` (`bbox.py` lines 30-45): raise `zeroSize` when
`np.allclose(p1, p2)`, raise `badOrder` when not `np.all(p1 < p2)`,
otherwise store the coordinates and the center `(p1 + p2) * 0.5`. -/
def mkBBox (p1 p2 : Vec3) : Except BBoxErr BBox :=
  if allclose3 p1 p2 then .error .zeroSize
  else if !ltAll3 p1 p2 then .error .badOrder
  else .ok { p1 := p1, p2 := p2,
             center := ((p1.1 + p2.1) / 2, (p1.2.1 + p2.2.1) / 2,
                        (p1.2.2 + p2.2.2) / 2) }

/-- Componentwise minimum of two 3-vectors. -/
def min3 (p q : Vec3) : Vec3 := (min p.1 q.1, min p.2.1 q.2.1, min p.2.2 q.2.2)

/-- Componentwise maximum of two 3-vectors. -/
def max3 (p q : Vec3) : Vec3 := (max p.1 q.1, max p.2.1 q.2.1, max p.2.2 q.2.2)

/-- `np.min(vertices, axis=0)` over a nonempty list (head as accumulator). -/
def npMinList (v : Vec3) (vs : List Vec3) : Vec3 := vs.foldl min3 v

/-- `np.max(vertices, axis=0)` over a nonempty list. -/
def npMaxList (v : Vec3) (vs : List Vec3) : Vec3 := vs.foldl max3 v

/-- A 4x4 transform matrix, the (unused) `m` argument of
`BBox.fromVertices`. -/
abbrev Mat4 : Type := Fin 4 → Fin 4 → ℚ

/-- `BBox.fromVertices(vertices, m=None)` (`bbox.py` lines 58-71):
`p1 = np.min(vertices, axis=0)`, `p2 = np.max(vertices, axis=0)`,
`BBox(p1, p2)`.  The parameter `m` is bound but never read in the source;
an empty list makes the numpy reductions raise `ValueError`. -/
def fromVertices (vertices : List Vec3) (m : Option Mat4) : Except BBoxErr BBox :=
  match vertices with
  | [] => .error .emptyValueError
  | v :: vs => mkBBox (npMinList v vs) (npMaxList v vs)

/-- `BBox.size()` (`bbox.py` lines 72-77). -/
def bboxSize (b : BBox) : Vec3 :=
  (b.p2.1 - b.p1.1, b.p2.2.1 - b.p1.2.1, b.p2.2.2 - b.p1.2.2)

/-- `BBox.vertices()` (`bbox.py` lines 117-142): the 8 corner points. -/
def bboxVertices (b : BBox) : List Vec3 :=
  let left := b.p1.1; let right := b.p2.1
  let bottom := b.p1.2.1; let top := b.p2.2.1
  let back := b.p1.2.2; let front := b.p2.2.2
  [(left, front, bottom), (right, front, bottom), (right, front, top),
   (left, front, top), (left, back, bottom), (right, back, bottom),
   (right, back, top), (left, back, top)]

/-- 3-vector addition (the `+=` on `QVector3D` in `addVertex`). -/
def add3 (a b : Vec3) : Vec3 := (a.1 + b.1, a.2.1 + b.2.1, a.2.2 + b.2.2)

/-- Squared Euclidean norm of a 3-vector. -/
def normSq3 (v : Vec3) : ℚ := v.1 ^ 2 + v.2.1 ^ 2 + v.2.2 ^ 2

/-- Dot product of 2-vectors. -/
def dot2 (u v : Vec2) : ℚ := u.1 * v.1 + u.2 * v.2

/-- Squared Euclidean norm of a 2-vector. -/
def normSq2 (u : Vec2) : ℚ := u.1 ^ 2 + u.2 ^ 2

/-- `|û·v̂| ≤ t` for the Qt-normalized directions `û`, `v̂` of `u`, `v`,
embedded in the equivalent squared form `(u·v)² ≤ t²·|u|²·|v|²`.
The forms agree for every `t ≥ 0`, including when `u` or `v` is the zero
vector (Qt's `normalized()` returns the zero vector there, making the
normalized dot product 0 and both sides of the equivalence true). -/
def normDotLe (u v : Vec2) (t : ℚ) : Bool :=
  decide ((dot2 u v) ^ 2 ≤ t ^ 2 * normSq2 u * normSq2 v)

/-- `RevolvedMesh._isLineTanToArc(x1, y1, x2, y2, cx, cy, d)`
(`mesh.py` lines 449-471): with shared point `p = (x2, y2)`,
`v1 = normalized(p - (x1, y1))`, `v2 = normalized(p - (cx, cy))`,
return True iff `|v1·v2| ≤ 1e-6`.  The winding argument `d` is bound but
never read in the source. -/
def isLineTanToArc (x1 y1 x2 y2 cx cy : ℚ) (d : Bool) : Bool :=
  normDotLe (x2 - x1, y2 - y1) (x2 - cx, y2 - cy) (1 / 1000000)

/-- `RevolvedMesh._isArcTangentToArc(px, py, cx1, cy1, cx2, cy2)`
(`mesh.py` lines 472-490, flagged `TODO: untested` in the source).
Faithful to the source: BOTH `v1` and `v2` are computed from the first
center (`v2 = QVector2D(p - QPointF(cx1, cy1)).normalized()` — `cx2, cy2`
are never read), and the test is `abs(v1.dotProduct(v1, v2)) - 1.0 <= 1e-6`,
i.e. `|v1·v1| ≤ 1 + 1e-6`, embedded in squared form. -/
def isArcTangentToArc (px py cx1 cy1 cx2 cy2 : ℚ) : Bool :=
  normDotLe (px - cx1, py - cy1) (px - cx1, py - cy1) (1 + 1 / 1000000)

/-- The arc-to-arc tangency test as the spec's sentence states it (for
comparison with the source's `isArcTangentToArc`): the vectors from *each*
arc's center to the shared point are perpendicular, dot product within
±1e-6 (squared form as above). -/
def specArcTangentToArc (px py cx1 cy1 cx2 cy2 : ℚ) : Bool :=
  normDotLe (px - cx1, py - cy1) (px - cx2, py - cy2) (1 / 1000000)

/-- `Modelled from the spec:` the `Arc` value class lives in `arc.py`, which
is absent from the repository snapshot (`mesh.py` does `from arc import
Arc`).  Per spec §3/§4.1 an arc holds a start angle (degrees) and a signed
span (degrees, positive = counter-clockwise, magnitude in (0, 360]);
`Patch.addRevArcSeg` reads only `startAngle()`, `span()` and `endAngle()`
(the angle `startAngle + span` swept to). -/
structure ArcM : Type where
  startAngle : ℚ
  span : ℚ
  deriving DecidableEq, Repr

/-- `Modelled from the spec:` `Arc.endAngle()` — the angle the span sweeps
to from the start angle (`arc.py` is absent from the snapshot). -/
def ArcM.endAngle (a : ArcM) : ℚ := a.startAngle + a.span

/-- The irrational-valued primitives of the mesh build, as model parameters:

* `sincos` — `RevolvedMesh.sincos`, i.e. `getSinCosCache(32)`: the list of
  pairs of consecutive `(sin, cos)` samples around the circle (windows of
  `[0, step, ..., (n-1)·step, 0]`); its entries are irrational reals, so
  the cache is a parameter, with rational stand-ins at witnesses.
* `triNormal` — `QVector3D.normal(a, b, c)`: the normalized cross product
  `(b - a) × (c - a)`; the zero vector when the cross product is zero
  (degenerate triangle).
* `nrm` — `QVector3D.normalize` applied to a summed normal: `w / ‖w‖`,
  with the zero vector left unchanged.
* `sinDeg` / `cosDeg` — `sin(radians(x))` / `cos(radians(x))` on the
  degree-valued angles of `Patch.addRevArcSeg`.
* `sqrtQ` — `math.sqrt`, for the arc radius.
* `fromVectors` — `Arc.fromVectors(v1, v2, radius, isCCW)`; modelled from
  the spec (see `ArcM`): returns the arc whose start angle is `v1`'s angle
  and whose signed span sweeps to `v2`'s angle in the requested direction.
-/
structure Prims : Type where
  sincos : List ((ℚ × ℚ) × (ℚ × ℚ))
  triNormal : Vec3 → Vec3 → Vec3 → Vec3
  nrm : Vec3 → Vec3
  sinDeg : ℚ → ℚ
  cosDeg : ℚ → ℚ
  sqrtQ : ℚ → ℚ
  fromVectors : Vec2 → Vec2 → ℚ → Bool → ArcM

/-- `RevolvedMesh.segs` (class attribute, `mesh.py` line 443). -/
def meshSegs : ℕ := 32

/-- Ghost trace events (specification-only instrumentation, not part of the
source's state): each revolved sub-strip (`Patch.addRevLineSeg` call) and
each `Mesh.blendTangent` call. -/
inductive MEvent : Type
  | strip (x1 y1 x2 y2 : ℚ)
  | blendEv (b : Bool)
  deriving DecidableEq, Repr

/-- The per-`Patch` state: `_startIndex`, `_indices`, `_nTris`
(`mesh.py` lines 38-53; render attributes are not modelled). -/
structure PatchState : Type where
  startIndex : ℕ
  indices : List ℕ
  nTris : ℕ
  deriving DecidableEq, Repr

/-- The sentinel `1e10` stored in `_prevPatchStartIndex` to disable
blending with the previous patch (`mesh.py` lines 295, 337). -/
def sentinel : ℕ := 10000000000

/-- The mutable `Mesh` state (`mesh.py` lines 283-297): `_vertices`,
`_normals`, `_sharedVertices`, `_nVertices`, `_prevPatchStartIndex`,
`_patches`.  `submits` and `events` are ghost instrumentation recording the
`addVertex` submissions (position, apex flag) and the strip/blend calls;
they influence no other field. -/
structure MeshState : Type where
  vertices : List Vec3
  normals : List Vec3
  shared : List Vec3
  nVertices : ℕ
  prevPatchStart : ℕ
  patches : List PatchState
  submits : List (Vec3 × Bool)
  events : List MEvent
  deriving DecidableEq, Repr

/-- `Mesh.__init__` (`mesh.py` lines 283-297). -/
def initMesh : MeshState :=
  { vertices := [], normals := [], shared := [], nVertices := 0,
    prevPatchStart := sentinel, patches := [], submits := [], events := [] }

/-- The default `eps` of `Mesh.verticesEqual` (1e-8). -/
def vEps : ℚ := 1 / 100000000

/-- `Mesh.verticesEqual(v1, v2, eps=1e-8)` (`mesh.py` lines 338-350):
componentwise `|v1[i] - v2[i]| > eps` short-circuits to False, else True. -/
def verticesEqual (v1 v2 : Vec3) : Bool :=
  if |v1.1 - v2.1| > vEps then false
  else if |v1.2.1 - v2.2.1| > vEps then false
  else if |v1.2.2 - v2.2.2| > vEps then false
  else true

/-- The `_sharedVertices` dedup pass at the top of `addVertex`
(`mesh.py` lines 367-371): scan the list backward and append `v` when no
entry is `verticesEqual` to it. -/
def sharedUpd (shared : List Vec3) (v : Vec3) : List Vec3 :=
  if shared.reverse.any (fun vv => verticesEqual v vv) then shared
  else shared ++ [v]

/-- The backward welding scan of `addVertex` (`mesh.py` lines 375-385):
`i` is the current index, `fuel` the number of remaining candidates
(`nVertices - floor` at entry, so the loop body never runs when the floor
is at or above the buffer end, as with the Python `while i >= startIndex`
loop). -/
def weldLoop (verts : List Vec3) (v : Vec3) : ℕ → ℕ → Option ℕ
  | 0, _ => none
  | fuel + 1, i =>
    if verticesEqual (verts.getD i (0, 0, 0)) v then some i
    else weldLoop verts v fuel (i - 1)

/-- `Mesh.addVertex(v, n, startIndex, apex)` (`mesh.py` lines 356-390).
Returns the updated state and the index of the welded or appended vertex.
The shared-vertex dedup runs first in either case; an apex submission then
appends unconditionally; otherwise the welding scan runs from the most
recent vertex down to `min(startIndex, prevPatchStartIndex)`, and on a hit
replaces the stored normal with `normalize(stored + n)` and returns the hit
index. -/
def addVertex (p : Prims) (s : MeshState) (v n : Vec3) (startIndex : ℕ)
    (apex : Bool) : MeshState × ℕ :=
  let s := { s with shared := sharedUpd s.shared v,
                    submits := s.submits ++ [(v, apex)] }
  if apex then
    ({ s with vertices := s.vertices ++ [v], normals := s.normals ++ [n],
              nVertices := s.nVertices + 1 }, s.nVertices)
  else
    let floor := min startIndex s.prevPatchStart
    match weldLoop s.vertices v (s.nVertices - floor) (s.nVertices - 1) with
    | some i =>
      ({ s with normals :=
           s.normals.set i (p.nrm (add3 (s.normals.getD i (0, 0, 0)) n)) }, i)
    | none =>
      ({ s with vertices := s.vertices ++ [v], normals := s.normals ++ [n],
                nVertices := s.nVertices + 1 }, s.nVertices)

/-- `Patch.addTri(a, b, c, apexVertex)` (`mesh.py` lines 77-99): the face
normal is `QVector3D.normal(a, b, c)` (a `Prims` parameter); each vertex is
submitted with apex flag `apexVertex == vertex` (Python value equality,
False when `apexVertex` is `None`). -/
def addTri (p : Prims) (ps : PatchState) (ms : MeshState) (a b c : Vec3)
    (apexVertex : Option Vec3) : PatchState × MeshState :=
  let n := p.triNormal a b c
  let r1 := addVertex p ms a n ps.startIndex (decide (apexVertex = some a))
  let r2 := addVertex p r1.1 b n ps.startIndex (decide (apexVertex = some b))
  let r3 := addVertex p r2.1 c n ps.startIndex (decide (apexVertex = some c))
  ({ ps with indices := ps.indices ++ [r1.2, r2.2, r3.2],
             nTris := ps.nTris + 1 }, r3.1)

/-- `Patch.addQuad(a, b, c, d)` (`mesh.py` lines 100-114): triangles
`(a, b, c)` and `(d, a, c)`. -/
def addQuad (p : Prims) (ps : PatchState) (ms : MeshState)
    (a b c d : Vec3) : PatchState × MeshState :=
  let r1 := addTri p ps ms a b c none
  addTri p r1.1 r1.2 d a c none

/-- `Patch.addRevLineSeg(x1, y1, x2, y2)` (`mesh.py` lines 115-150).
`np.allclose(x, 0.0)` selects the tip fan (`x1` on axis) or the shank-end
fan (`x2` on axis); otherwise a quad strip.  In the fan cases the fan
center is passed as `addTri`'s `apexVertex` only when the two Z-heights are
NOT `np.allclose` (`None if np.allclose(y1, y2) else a`).  A ghost `strip`
event records the call. -/
def addRevLineSeg (p : Prims) (ps : PatchState) (ms : MeshState)
    (x1 y1 x2 y2 : ℚ) : PatchState × MeshState :=
  let ms := { ms with events := ms.events ++ [MEvent.strip x1 y1 x2 y2] }
  if allcloseQ x1 0 then
    let a : Vec3 := (x1, y1, 0)
    p.sincos.foldl
      (fun acc sc =>
        let r := x2
        let b : Vec3 := (r * sc.2.1, y2, r * sc.2.2)
        let c : Vec3 := (r * sc.1.1, y2, r * sc.1.2)
        addTri p acc.1 acc.2 a b c (if allcloseQ y1 y2 then none else some a))
      (ps, ms)
  else if allcloseQ x2 0 then
    let a : Vec3 := (x2, y2, 0)
    p.sincos.foldl
      (fun acc sc =>
        let b : Vec3 := (x1 * sc.1.1, y1, x1 * sc.1.2)
        let c : Vec3 := (x1 * sc.2.1, y1, x1 * sc.2.2)
        addTri p acc.1 acc.2 a b c (if allcloseQ y1 y2 then none else some a))
      (ps, ms)
  else
    p.sincos.foldl
      (fun acc sc =>
        addQuad p acc.1 acc.2
          (x1 * sc.1.1, y1, x1 * sc.1.2) (x1 * sc.2.1, y1, x1 * sc.2.2)
          (x2 * sc.2.1, y2, x2 * sc.2.2) (x2 * sc.1.1, y2, x2 * sc.1.2))
      (ps, ms)

/-- `Mesh.blendTangent(blend)` (`mesh.py` lines 327-337): when `blend` is
true and a previous patch exists, set `_prevPatchStartIndex` to that
patch's start index; otherwise reset it to the sentinel.  A ghost `blendEv`
event records the call. -/
def blendTangent (ms : MeshState) (blend : Bool) : MeshState :=
  let ms := { ms with events := ms.events ++ [MEvent.blendEv blend] }
  if blend && !ms.patches.isEmpty then
    { ms with prevPatchStart :=
        (ms.patches.getLastD ⟨0, [], 0⟩).startIndex }
  else
    { ms with prevPatchStart := sentinel }

/-- One iteration of the `for i in range(1, segs)` loop of
`Patch.addRevArcSeg` (`mesh.py` lines 181-195): carry the previous angle's
`(sin, cos)` pair, emit the sub-strip from the previous to the current
sample, and — only when `i == 1` — call `blendTangent(False)` right after
the strip ("only blend the first strip"). -/
def arcStep (p : Prims) (cx cy r sa step : ℚ)
    (st : (ℚ × ℚ) × PatchState × MeshState) (i : ℕ) :
    (ℚ × ℚ) × PatchState × MeshState :=
  let sa1 := st.1.1
  let ca1 := st.1.2
  let a2 := sa + step * (i : ℚ)
  let sa2 := p.sinDeg a2
  let ca2 := p.cosDeg a2
  let r1 := addRevLineSeg p st.2.1 st.2.2 (cx + r * ca1) (cy + r * sa1)
    (cx + r * ca2) (cy + r * sa2)
  let ms2 := if i == 1 then blendTangent r1.2 false else r1.2
  ((sa2, ca2), r1.1, ms2)

/-- `Patch.addRevArcSeg(x1, y1, x2, y2, cx, cy, arcDir)` (`mesh.py` lines
151-203).  Radius and arc come from `math.sqrt` and `Arc.fromVectors`
(`Prims` parameters); `segs = max(int(abs(arc.span()) / angstep), 3)` with
`angstep = 360.0 / 32` — Python `int()` truncates, i.e. floor of the
nonnegative quotient.  Sub-strips are emitted for `i = 1 .. segs-1` plus
the final strip to `arc.endAngle()` (the `for`-`else` clause, which always
runs); `blendTangent(False)` is called right after the first sub-strip. -/
def addRevArcSeg (p : Prims) (ps : PatchState) (ms : MeshState)
    (x1 y1 x2 y2 cx cy : ℚ) (arcDir : Bool) : PatchState × MeshState :=
  let a := x1 - cx
  let b := y1 - cy
  let r := p.sqrtQ (a * a + b * b)
  let arc := p.fromVectors (a, b) (x2 - cx, y2 - cy) r arcDir
  let angstep : ℚ := 360 / (meshSegs : ℚ)
  let segs : ℕ := max (⌊|arc.span| / angstep⌋.toNat) 3
  let step : ℚ := arc.span / (segs : ℚ)
  let sa := arc.startAngle
  let st := (List.range' 1 (segs - 1)).foldl (arcStep p cx cy r sa step)
    ((p.sinDeg sa, p.cosDeg sa), ps, ms)
  let a2 := arc.endAngle
  addRevLineSeg p st.2.1 st.2.2 (cx + r * st.1.2) (cy + r * st.1.1)
    (cx + r * p.cosDeg a2) (cy + r * p.sinDeg a2)

/-- `Patch.fromRevLineSeg` (`mesh.py` lines 251-262): a fresh patch whose
`_startIndex` is the mesh's current vertex count, then `addRevLineSeg`. -/
def fromRevLineSeg (p : Prims) (ms : MeshState) (x1 y1 x2 y2 : ℚ) :
    PatchState × MeshState :=
  addRevLineSeg p ⟨ms.nVertices, [], 0⟩ ms x1 y1 x2 y2

/-- `Patch.fromRevArcSeg` (`mesh.py` lines 263-277). -/
def fromRevArcSeg (p : Prims) (ms : MeshState) (x1 y1 x2 y2 cx cy : ℚ)
    (d : Bool) : PatchState × MeshState :=
  addRevArcSeg p ⟨ms.nVertices, [], 0⟩ ms x1 y1 x2 y2 cx cy d

/-- A profile element, "a list of tuples as defined in tooldef.py"
(`mesh.py` line 494): a 2-tuple point `(x, y)` or a 3-tuple arc
`((x, y), (cx, cy), dir)`; `dir = true` models `'cclw'`. -/
inductive PElem : Type
  | point (x y : ℚ)
  | arc (ep ctr : Vec2) (dir : Bool)
  deriving DecidableEq, Repr

/-- The errors a mesh build can raise. -/
inductive BuildErr : Type
  | indexError          -- `profile[0]` on an empty profile (close=True)
  | malformedProfile    -- close=True on an arc-headed profile, see below
  | bboxError (e : BBoxErr)
  deriving DecidableEq, Repr

/-- The `close=True` preprocessing of `addProfile` (`mesh.py` lines
500-510).  For a point head the test is `e1[0] != 0.0`; for a point tail
`e2[0] != 0.0`.  When the profile ends in an arc, the Python 2 comparison
`e2[0] != 0.0` puts a tuple against a float and is ALWAYS true, so a
synthetic `(0.0, e2[0][1])` point is appended regardless of whether the
arc's endpoint is already on the axis.  A profile *starting* with an arc
would prepend the ill-typed element `(0.0, (cx, cy))`, which crashes with a
TypeError when the first patch is tessellated (before any mesh mutation);
that is modelled as `malformedProfile`.  An empty profile raises IndexError
at `profile[0]`. -/
def closeProfile (profile : List PElem) : Except BuildErr (List PElem) :=
  match profile with
  | [] => .error .indexError
  | .arc _ _ _ :: _ => .error .malformedProfile
  | .point x y :: rest =>
    let profile1 : List PElem :=
      if x ≠ 0 then .point 0 y :: .point x y :: rest
      else .point x y :: rest
    match profile1.getLast? with
    | some (.point x2 y2) =>
      if x2 ≠ 0 then .ok (profile1 ++ [.point 0 y2]) else .ok profile1
    | some (.arc ep _ _) => .ok (profile1 ++ [.point 0 ep.2])
    | none => .ok profile1   -- unreachable: profile1 is nonempty

/-- `windowItr(profile, 2, 1)`: the list of consecutive element pairs. -/
def pairsOf {α : Type} (l : List α) : List (α × α) := l.zip (l.drop 1)

/-- The pairwise traversal loop of `addProfile` (`mesh.py` lines 511-562),
threading the previous line start point `px1, py1` (`none` models the
initial Python `None`; note the point→arc branch calls `blendTangent` only
when it is set, and only the line branches update it).  Each built patch is
appended to `_patches` after its tessellation.  `setColor` only sets a
render attribute and is not modelled. -/
def traverse (p : Prims) :
    MeshState → Option Vec2 → List (PElem × PElem) → MeshState
  | ms, _, [] => ms
  | ms, pxy, (e1, e2) :: rest =>
    match e1, e2 with
    | .point x1 y1, .point x2 y2 =>
      let ms := blendTangent ms false
      let r := fromRevLineSeg p ms x1 y1 x2 y2
      let ms := { r.2 with patches := r.2.patches ++ [r.1] }
      traverse p ms (some (x1, y1)) rest
    | .point x1 y1, .arc ep ctr d =>
      let ms := match pxy with
        | some pq =>
          blendTangent ms (isLineTanToArc pq.1 pq.2 x1 y1 ctr.1 ctr.2 d)
        | none => ms
      let r := fromRevArcSeg p ms x1 y1 ep.1 ep.2 ctr.1 ctr.2 d
      let ms := { r.2 with patches := r.2.patches ++ [r.1] }
      traverse p ms pxy rest
    | .arc ep ctr d, .point lex ley =>
      let ms := blendTangent ms (isLineTanToArc lex ley ep.1 ep.2 ctr.1 ctr.2 d)
      let r := fromRevLineSeg p ms ep.1 ep.2 lex ley
      let ms := { r.2 with patches := r.2.patches ++ [r.1] }
      traverse p ms (some ep) rest
    | .arc ep1 ctr1 _, .arc ep2 ctr2 d2 =>
      let ms := blendTangent ms
        (isArcTangentToArc ep1.1 ep1.2 ctr1.1 ctr1.2 ctr2.1 ctr2.2)
      let r := fromRevArcSeg p ms ep1.1 ep1.2 ep2.1 ep2.2 ctr2.1 ctr2.2 d2
      let ms := { r.2 with patches := r.2.patches ++ [r.1] }
      traverse p ms pxy rest

/-- `RevolvedMesh.addProfile(profile, color, close)` (`mesh.py` lines
491-563) run on a mesh state, followed by the bounding-box computation
`BBox.fromVertices(self._sharedVertices)` (line 563). -/
def addProfile (p : Prims) (ms : MeshState) (profile : List PElem)
    (close : Bool) : Except BuildErr (MeshState × BBox) :=
  match (if close then closeProfile profile else .ok profile) with
  | .error e => .error e
  | .ok prof =>
    let ms := traverse p ms none (pairsOf prof)
    match fromVertices ms.shared none with
    | .error e => .error (.bboxError e)
    | .ok b => .ok (ms, b)

/-- `RevolvedMesh.__init__(profile, color, close)` with a profile
(`mesh.py` lines 445-448): build from a fresh mesh state. -/
def buildRevolvedMesh (p : Prims) (profile : List PElem) (close : Bool) :
    Except BuildErr (MeshState × BBox) :=
  addProfile p initMesh profile close

/-- Python 2's `round` on a nonnegative value (half away from zero),
used only to state what claim C4 says the sub-segment count is. -/
def pyRound (q : ℚ) : ℕ := ⌊q + 1 / 2⌋.toNat

/-- "Euclidean magnitude 1 within 1e-6", in squared form: for `‖n‖ ≥ 0`,
`|‖n‖ - 1| ≤ 1e-6 ↔ (1 - 1e-6)² ≤ ‖n‖² ∧ ‖n‖² ≤ (1 + 1e-6)²`. -/
def unitWithin (n : Vec3) : Prop :=
  (1 - 1 / 1000000) ^ 2 ≤ normSq3 n ∧ normSq3 n ≤ (1 + 1 / 1000000) ^ 2

instance (n : Vec3) : Decidable (unitWithin n) := by
  unfold unitWithin; infer_instance

/-- Concrete stand-in primitives for closed evaluations.  The ring cache
has two windows (rational points on the unit circle at 0° and 90°);
`triNormal` agrees with `QVector3D.normal` on triangles with a repeated
vertex (zero cross product ⇒ zero vector) and is otherwise a fixed unit
stand-in; `fromVectors` yields a 42° span (realizable by two direction
vectors 42° apart, whose exact coordinates are irrational); the remaining
fields are simple stand-ins.  Every control-flow fact instantiated here is
also proved for all `Prims`. -/
def testPrims : Prims where
  sincos := [((0, 1), (1, 0)), ((1, 0), (0, 1))]
  triNormal a b c := if a = b ∨ b = c ∨ a = c then (0, 0, 0) else (1, 0, 0)
  nrm _ := (1, 0, 0)
  sinDeg _ := 0
  cosDeg _ := 1
  sqrtQ q := q
  fromVectors _ _ _ _ := ⟨0, 42⟩

/-- A second stand-in instance whose `triNormal` and `nrm` agree with Qt's
`QVector3D.normal` / `normalize` on the degenerate inputs that occur in the
runs below: a triangle with a repeated vertex has zero cross product, so
`QVector3D.normal` returns the null vector, and `normalize` leaves the null
vector unchanged. -/
def qtDegenPrims : Prims :=
  { testPrims with
      nrm := fun w => if w = (0, 0, 0) then (0, 0, 0) else (1, 0, 0) }

/-- An idealized instance whose normal primitives always return a unit
vector (the hypothesis under which the unit-normal invariant holds). -/
def unitPrims : Prims :=
  { testPrims with triNormal := fun _ _ _ => (1, 0, 0) }

/-- Componentwise `≤` on 3-vectors, for bounding-box statements. -/
def le3 (p q : Vec3) : Prop := p.1 ≤ q.1 ∧ p.2.1 ≤ q.2.1 ∧ p.2.2 ≤ q.2.2

/-- Is a ghost event a revolved sub-strip? -/
def isStripEv : MEvent → Bool
  | .strip _ _ _ _ => true
  | .blendEv _ => false

/-- Is a ghost event a `blendTangent` call? -/
def isBlendEv : MEvent → Bool
  | .strip _ _ _ _ => false
  | .blendEv _ => true

/-- Number of sub-strip events in a ghost trace. -/
def stripCount (l : List MEvent) : ℕ := (l.filter isStripEv).length

/-- The patch count of a successful build (`none` on error). -/
def okPatches (r : Except BuildErr (MeshState × BBox)) : Option ℕ :=
  match r with
  | .ok msb => some msb.1.patches.length
  | .error _ => none

/-- The normals buffer of a successful build (`none` on error). -/
def okNormals (r : Except BuildErr (MeshState × BBox)) : Option (List Vec3) :=
  match r with
  | .ok msb => some msb.1.normals
  | .error _ => none

/-! ## Theorems -/

theorem addVertex_events (p : Prims) (s : MeshState) (v n : Vec3) (si : ℕ)
    (apex : Bool) : (addVertex p s v n si apex).1.events = s.events := by
  unfold addVertex
  dsimp only
  split
  · rfl
  · split <;> rfl

theorem addVertex_pps (p : Prims) (s : MeshState) (v n : Vec3) (si : ℕ)
    (apex : Bool) :
    (addVertex p s v n si apex).1.prevPatchStart = s.prevPatchStart := by
  unfold addVertex
  dsimp only
  split
  · rfl
  · split <;> rfl

theorem addVertex_patches (p : Prims) (s : MeshState) (v n : Vec3) (si : ℕ)
    (apex : Bool) : (addVertex p s v n si apex).1.patches = s.patches := by
  unfold addVertex
  dsimp only
  split
  · rfl
  · split <;> rfl

theorem addVertex_submits (p : Prims) (s : MeshState) (v n : Vec3) (si : ℕ)
    (apex : Bool) :
    (addVertex p s v n si apex).1.submits = s.submits ++ [(v, apex)] := by
  unfold addVertex
  dsimp only
  split
  · rfl
  · split <;> rfl

theorem addTri_events (p : Prims) (ps : PatchState) (ms : MeshState)
    (a b c : Vec3) (apx : Option Vec3) :
    (addTri p ps ms a b c apx).2.events = ms.events := by
  unfold addTri
  dsimp only
  rw [addVertex_events, addVertex_events, addVertex_events]

theorem addTri_pps (p : Prims) (ps : PatchState) (ms : MeshState)
    (a b c : Vec3) (apx : Option Vec3) :
    (addTri p ps ms a b c apx).2.prevPatchStart = ms.prevPatchStart := by
  unfold addTri
  dsimp only
  rw [addVertex_pps, addVertex_pps, addVertex_pps]

theorem addTri_patches (p : Prims) (ps : PatchState) (ms : MeshState)
    (a b c : Vec3) (apx : Option Vec3) :
    (addTri p ps ms a b c apx).2.patches = ms.patches := by
  unfold addTri
  dsimp only
  rw [addVertex_patches, addVertex_patches, addVertex_patches]

theorem addTri_submits (p : Prims) (ps : PatchState) (ms : MeshState)
    (a b c : Vec3) (apx : Option Vec3) :
    (addTri p ps ms a b c apx).2.submits = ms.submits ++
      [(a, decide (apx = some a)), (b, decide (apx = some b)),
       (c, decide (apx = some c))] := by
  unfold addTri
  dsimp only
  rw [addVertex_submits, addVertex_submits, addVertex_submits,
      List.append_assoc, List.append_assoc]
  rfl

theorem addQuad_events (p : Prims) (ps : PatchState) (ms : MeshState)
    (a b c d : Vec3) : (addQuad p ps ms a b c d).2.events = ms.events := by
  unfold addQuad
  dsimp only
  rw [addTri_events, addTri_events]

theorem addQuad_pps (p : Prims) (ps : PatchState) (ms : MeshState)
    (a b c d : Vec3) :
    (addQuad p ps ms a b c d).2.prevPatchStart = ms.prevPatchStart := by
  unfold addQuad
  dsimp only
  rw [addTri_pps, addTri_pps]

theorem addQuad_patches (p : Prims) (ps : PatchState) (ms : MeshState)
    (a b c d : Vec3) : (addQuad p ps ms a b c d).2.patches = ms.patches := by
  unfold addQuad
  dsimp only
  rw [addTri_patches, addTri_patches]

theorem foldl_proj_const {α σ γ : Type} (f : σ → α → σ) (g : σ → γ)
    (hf : ∀ s a, g (f s a) = g s) : ∀ (l : List α) (s : σ),
    g (l.foldl f s) = g s := by
  intro l
  induction l with
  | nil => intro s; rfl
  | cons x xs ih => intro s; rw [List.foldl_cons, ih, hf]

theorem addRevLineSeg_events (p : Prims) (ps : PatchState) (ms : MeshState)
    (x1 y1 x2 y2 : ℚ) :
    (addRevLineSeg p ps ms x1 y1 x2 y2).2.events =
      ms.events ++ [MEvent.strip x1 y1 x2 y2] := by
  unfold addRevLineSeg
  dsimp only
  split_ifs <;>
    first
      | exact foldl_proj_const _ (fun acc : PatchState × MeshState => acc.2.events)
          (fun s a => addTri_events _ _ _ _ _ _ _) _ _
      | exact foldl_proj_const _ (fun acc : PatchState × MeshState => acc.2.events)
          (fun s a => addQuad_events _ _ _ _ _ _ _) _ _

theorem addRevLineSeg_pps (p : Prims) (ps : PatchState) (ms : MeshState)
    (x1 y1 x2 y2 : ℚ) :
    (addRevLineSeg p ps ms x1 y1 x2 y2).2.prevPatchStart =
      ms.prevPatchStart := by
  unfold addRevLineSeg
  dsimp only
  split_ifs <;>
    first
      | exact foldl_proj_const _
          (fun acc : PatchState × MeshState => acc.2.prevPatchStart)
          (fun s a => addTri_pps _ _ _ _ _ _ _) _ _
      | exact foldl_proj_const _
          (fun acc : PatchState × MeshState => acc.2.prevPatchStart)
          (fun s a => addQuad_pps _ _ _ _ _ _ _) _ _

theorem addRevLineSeg_patches (p : Prims) (ps : PatchState) (ms : MeshState)
    (x1 y1 x2 y2 : ℚ) :
    (addRevLineSeg p ps ms x1 y1 x2 y2).2.patches = ms.patches := by
  unfold addRevLineSeg
  dsimp only
  split_ifs <;>
    first
      | exact foldl_proj_const _ (fun acc : PatchState × MeshState => acc.2.patches)
          (fun s a => addTri_patches _ _ _ _ _ _ _) _ _
      | exact foldl_proj_const _ (fun acc : PatchState × MeshState => acc.2.patches)
          (fun s a => addQuad_patches _ _ _ _ _ _ _) _ _

theorem blendTangent_events (ms : MeshState) (b : Bool) :
    (blendTangent ms b).events = ms.events ++ [MEvent.blendEv b] := by
  unfold blendTangent
  dsimp only
  split <;> rfl

theorem blendTangent_false_pps (ms : MeshState) :
    (blendTangent ms false).prevPatchStart = sentinel := rfl

theorem arcStep_events_one (p : Prims) (cx cy r sa step : ℚ)
    (st : (ℚ × ℚ) × PatchState × MeshState) :
    ∃ e, isStripEv e = true ∧
      (arcStep p cx cy r sa step st 1).2.2.events =
        st.2.2.events ++ [e, MEvent.blendEv false] := by
  refine ⟨.strip (cx + r * st.1.2) (cy + r * st.1.1)
    (cx + r * p.cosDeg (sa + step * (1 : ℕ))) (cy + r * p.sinDeg (sa + step * (1 : ℕ))),
    rfl, ?_⟩
  unfold arcStep
  dsimp only
  have hcond : ((1 : ℕ) == 1) = true := rfl
  rw [if_pos hcond, blendTangent_events, addRevLineSeg_events,
      List.append_assoc]
  rfl

theorem arcStep_events_ne (p : Prims) (cx cy r sa step : ℚ)
    (st : (ℚ × ℚ) × PatchState × MeshState) (i : ℕ) (h : (i == 1) = false) :
    ∃ e, isStripEv e = true ∧
      (arcStep p cx cy r sa step st i).2.2.events = st.2.2.events ++ [e] := by
  refine ⟨.strip (cx + r * st.1.2) (cy + r * st.1.1)
    (cx + r * p.cosDeg (sa + step * (i : ℚ))) (cy + r * p.sinDeg (sa + step * (i : ℚ))),
    rfl, ?_⟩
  unfold arcStep
  dsimp only
  rw [if_neg (by simp [h]), addRevLineSeg_events]

theorem arcStep_pps_one (p : Prims) (cx cy r sa step : ℚ)
    (st : (ℚ × ℚ) × PatchState × MeshState) :
    (arcStep p cx cy r sa step st 1).2.2.prevPatchStart = sentinel := by
  unfold arcStep
  dsimp only
  have hcond : ((1 : ℕ) == 1) = true := rfl
  rw [if_pos hcond]
  exact blendTangent_false_pps _

theorem arcStep_pps_ne (p : Prims) (cx cy r sa step : ℚ)
    (st : (ℚ × ℚ) × PatchState × MeshState) (i : ℕ) (h : (i == 1) = false) :
    (arcStep p cx cy r sa step st i).2.2.prevPatchStart =
      st.2.2.prevPatchStart := by
  unfold arcStep
  dsimp only
  rw [if_neg (by simp [h])]
  exact addRevLineSeg_pps _ _ _ _ _ _ _

theorem arcFold_no_one (p : Prims) (cx cy r sa step : ℚ) :
    ∀ (l : List ℕ), (∀ i ∈ l, (i == 1) = false) →
    ∀ st : (ℚ × ℚ) × PatchState × MeshState,
      ∃ rest, (l.foldl (arcStep p cx cy r sa step) st).2.2.events =
          st.2.2.events ++ rest ∧
        rest.length = l.length ∧ rest.all isStripEv = true ∧
        (l.foldl (arcStep p cx cy r sa step) st).2.2.prevPatchStart =
          st.2.2.prevPatchStart := by
  intro l
  induction l with
  | nil => exact fun _ st => ⟨[], by simp, rfl, rfl, rfl⟩
  | cons j l ih =>
    intro hl st
    obtain ⟨e, he, hev⟩ := arcStep_events_ne p cx cy r sa step st j
      (hl j (List.mem_cons_self j l))
    obtain ⟨rest, hr1, hr2, hr3, hr4⟩ :=
      ih (fun i hi => hl i (List.mem_cons_of_mem _ hi))
        (arcStep p cx cy r sa step st j)
    refine ⟨e :: rest, ?_, ?_, ?_, ?_⟩
    · rw [List.foldl_cons, hr1, hev]
      simp
    · simp [hr2]
    · simp [he, hr3]
    · rw [List.foldl_cons, hr4, arcStep_pps_ne p cx cy r sa step st j
        (hl j (List.mem_cons_self j l))]

/-- The full ghost trace of one `addRevArcSeg` call: `segs` sub-strips with
exactly one `blendTangent` call — a `blendTangent(False)` immediately after
the first sub-strip — and blending left disabled at exit. -/
theorem addRevArcSeg_trace (p : Prims) (ps : PatchState) (ms : MeshState)
    (x1 y1 x2 y2 cx cy : ℚ) (d : Bool) :
    ∃ s1 rest,
      (addRevArcSeg p ps ms x1 y1 x2 y2 cx cy d).2.events =
        ms.events ++ s1 :: MEvent.blendEv false :: rest ∧
      isStripEv s1 = true ∧ rest.all isStripEv = true ∧
      rest.length =
        (max (⌊|(p.fromVectors (x1 - cx, y1 - cy) (x2 - cx, y2 - cy)
            (p.sqrtQ ((x1 - cx) * (x1 - cx) + (y1 - cy) * (y1 - cy))) d).span| /
            (360 / (meshSegs : ℚ))⌋.toNat) 3) - 1 ∧
      (addRevArcSeg p ps ms x1 y1 x2 y2 cx cy d).2.prevPatchStart =
        sentinel := by
  unfold addRevArcSeg
  dsimp only
  set r := p.sqrtQ ((x1 - cx) * (x1 - cx) + (y1 - cy) * (y1 - cy)) with hr
  set arc := p.fromVectors (x1 - cx, y1 - cy) (x2 - cx, y2 - cy) r d with harc
  set segs := max (⌊|arc.span| / (360 / (meshSegs : ℚ))⌋.toNat) 3 with hsegs
  have hseg3 : 3 ≤ segs := le_max_right _ _
  have hsplit : List.range' 1 (segs - 1) = 1 :: List.range' 2 (segs - 2) := by
    have h1 : segs - 1 = (segs - 2) + 1 := by omega
    rw [h1, List.range'_succ]
  rw [hsplit, List.foldl_cons]
  obtain ⟨e1, he1, hev1⟩ := arcStep_events_one p cx cy r arc.startAngle
    (arc.span / (segs : ℚ))
    ((p.sinDeg arc.startAngle, p.cosDeg arc.startAngle), ps, ms)
  obtain ⟨rest, hrest_ev, hrest_len, hrest_all, hrest_pps⟩ :=
    arcFold_no_one p cx cy r arc.startAngle (arc.span / (segs : ℚ))
      (List.range' 2 (segs - 2))
      (by
        intro i hi
        have h2 := (List.mem_range'_1.mp hi).1
        simp only [beq_eq_false_iff_ne]
        omega)
      (arcStep p cx cy r arc.startAngle (arc.span / (segs : ℚ))
        ((p.sinDeg arc.startAngle, p.cosDeg arc.startAngle), ps, ms) 1)
  set st1 := arcStep p cx cy r arc.startAngle (arc.span / (segs : ℚ))
    ((p.sinDeg arc.startAngle, p.cosDeg arc.startAngle), ps, ms) 1 with hst1
  set stF := List.foldl (arcStep p cx cy r arc.startAngle (arc.span / (segs : ℚ)))
    st1 (List.range' 2 (segs - 2)) with hstF
  refine ⟨e1, rest ++ [MEvent.strip (cx + r * stF.1.2) (cy + r * stF.1.1)
    (cx + r * p.cosDeg arc.endAngle) (cy + r * p.sinDeg arc.endAngle)],
    ?_, he1, ?_, ?_, ?_⟩
  · rw [addRevLineSeg_events, hrest_ev, hev1]
    simp
  · simp [List.all_append, hrest_all, isStripEv]
  · rw [List.length_append, hrest_len, List.length_range', List.length_cons,
      List.length_nil]
    omega
  · rw [addRevLineSeg_pps, hrest_pps, arcStep_pps_one]

set_option maxRecDepth 100000 in
/-- C4 counterexample: an arc whose span is 42° (realizable by two
direction vectors 42° apart; `Arc.fromVectors` is the spec-modelled
parameter, instantiated to return that span).  `42 / 11.25 ≈ 3.73`, so the
claimed count `max(round(|span| / angleStep), 3) = 4`, but the code's
`int()` truncation gives `max(3, 3) = 3`: only 3 sub-strips are emitted. -/
theorem arc_subdivision_truncates_not_rounds :
    stripCount ((addRevArcSeg testPrims ⟨0, [], 0⟩ initMesh
      1 0 0 1 0 0 true).2.events) = 3 ∧
    max (pyRound (|(42 : ℚ)| / (360 / (meshSegs : ℚ)))) 3 = 4 := by
  constructor <;> with_unfolding_all decide

/-- C4 amended: the sub-segment count is
`max(int(|span| / angleStep), 3)` — `int()` truncation (floor on the
nonnegative quotient), not `round` — with `angleStep = 360 / 32`; exactly
that many revolved line sub-strips are emitted, and the count is never
below 3, so the minimum-3 guarantee does hold for every arc. -/
theorem addRevArcSeg_strip_count (p : Prims) (ps : PatchState)
    (ms : MeshState) (x1 y1 x2 y2 cx cy : ℚ) (d : Bool) :
    stripCount ((addRevArcSeg p ps ms x1 y1 x2 y2 cx cy d).2.events) =
      stripCount ms.events +
        max (⌊|(p.fromVectors (x1 - cx, y1 - cy) (x2 - cx, y2 - cy)
            (p.sqrtQ ((x1 - cx) * (x1 - cx) + (y1 - cy) * (y1 - cy))) d).span| /
            (360 / (meshSegs : ℚ))⌋.toNat) 3 ∧
    3 ≤ max (⌊|(p.fromVectors (x1 - cx, y1 - cy) (x2 - cx, y2 - cy)
          (p.sqrtQ ((x1 - cx) * (x1 - cx) + (y1 - cy) * (y1 - cy))) d).span| /
          (360 / (meshSegs : ℚ))⌋.toNat) 3 := by
  obtain ⟨s1, rest, hev, hs1, hall, hlen, _⟩ :=
    addRevArcSeg_trace p ps ms x1 y1 x2 y2 cx cy d
  refine ⟨?_, le_max_right _ _⟩
  rw [hev]
  unfold stripCount
  rw [List.filter_append, List.length_append]
  have hrest : rest.filter isStripEv = rest :=
    List.filter_eq_self.mpr (fun a ha => List.all_eq_true.mp hall a ha)
  have hblend : isStripEv (MEvent.blendEv false) = false := rfl
  have h3 : 3 ≤ max (⌊|(p.fromVectors (x1 - cx, y1 - cy) (x2 - cx, y2 - cy)
      (p.sqrtQ ((x1 - cx) * (x1 - cx) + (y1 - cy) * (y1 - cy))) d).span| /
      (360 / (meshSegs : ℚ))⌋.toNat) 3 := le_max_right _ _
  simp only [List.filter_cons, hs1, hblend, Bool.false_eq_true,
    eq_self_iff_true, if_true, if_false, hrest, List.length_cons]
  omega

/-- C6: `Patch.addRevArcSeg` makes exactly one `blendTangent` call — a
`blendTangent(false)` recorded immediately after the first sub-strip's
event and before every later sub-strip.  The first sub-strip therefore
runs under whatever blending state the caller established (blending with
the preceding patch only if the caller's tangency test enabled it), all
later sub-strips run with cross-patch blending disabled, and the patch
leaves `_prevPatchStartIndex` at the sentinel. -/
theorem addRevArcSeg_blends_only_first_strip (p : Prims) (ps : PatchState)
    (ms : MeshState) (x1 y1 x2 y2 cx cy : ℚ) (d : Bool) :
    ∃ s1 rest,
      (addRevArcSeg p ps ms x1 y1 x2 y2 cx cy d).2.events =
        ms.events ++ s1 :: MEvent.blendEv false :: rest ∧
      isStripEv s1 = true ∧
      (∀ e ∈ rest, isBlendEv e = false) ∧
      (addRevArcSeg p ps ms x1 y1 x2 y2 cx cy d).2.prevPatchStart =
        sentinel := by
  obtain ⟨s1, rest, hev, hs1, hall, _, hpps⟩ :=
    addRevArcSeg_trace p ps ms x1 y1 x2 y2 cx cy d
  refine ⟨s1, rest, hev, hs1, ?_, hpps⟩
  intro e he
  have := List.all_eq_true.mp hall e he
  cases e with
  | strip _ _ _ _ => rfl
  | blendEv b => exact absurd this (by simp [isStripEv])

/-- C5 counterexample: arcs sharing the point `(1, 0)` with centers
`(0, 0)` and `(3, 0)`.  The two center-to-shared-point vectors are
antiparallel (normalized dot product −1), so the perpendicularity test the
claim describes is false, yet `_isArcTangentToArc` returns True. -/
theorem arcTangent_claim_false_at_antiparallel :
    isArcTangentToArc 1 0 0 0 3 0 = true ∧
    specArcTangentToArc 1 0 0 0 3 0 = false := by
  constructor <;> with_unfolding_all decide

/-- C5 amended: `_isArcTangentToArc` never reads its second center (both
`v1` and `v2` are rebuilt from `cx1, cy1`) and its test
`|v1·v1| - 1 ≤ 1e-6` holds for every normalized (or null) `v1`, so the
predicate returns True on every input: `blendTangent` is always enabled for
arc→arc pairs. -/
theorem isArcTangentToArc_always_true (px py cx1 cy1 cx2 cy2 : ℚ) :
    isArcTangentToArc px py cx1 cy1 cx2 cy2 = true := by
  unfold isArcTangentToArc normDotLe dot2 normSq2
  rw [decide_eq_true_eq]
  set s : ℚ := (px - cx1) ^ 2 + (py - cy1) ^ 2 with hs
  have h1 : (px - cx1) * (px - cx1) + (py - cy1) * (py - cy1) = s := by
    rw [hs]; ring
  rw [h1]
  have h2 : 0 ≤ s := by rw [hs]; positivity
  nlinarith [h2, sq_nonneg s]

/-- C8: `BBox.__init__` rejects `p1 == p2` (the `allclose` guard) and any
axis with `p1[i] >= p2[i]` (the elementwise `p1 < p2` guard), raising a
`BBoxException` in both cases; a successfully constructed box satisfies
`p1[i] < p2[i]` on every axis, its size is positive on every axis, its
center lies strictly inside, and `vertices()` returns the 8 corners, all
within the box — the getters never mutate `_coords`, so the invariant is
preserved. -/
theorem bbox_rejects_degenerate_and_keeps_invariant (p1 p2 : Vec3) :
    (p1 = p2 → mkBBox p1 p2 = .error .zeroSize) ∧
    (p2.1 ≤ p1.1 ∨ p2.2.1 ≤ p1.2.1 ∨ p2.2.2 ≤ p1.2.2 →
      ∃ e, mkBBox p1 p2 = .error e) ∧
    (∀ b, mkBBox p1 p2 = .ok b →
      b.p1 = p1 ∧ b.p2 = p2 ∧
      (b.p1.1 < b.p2.1 ∧ b.p1.2.1 < b.p2.2.1 ∧ b.p1.2.2 < b.p2.2.2) ∧
      (0 < (bboxSize b).1 ∧ 0 < (bboxSize b).2.1 ∧ 0 < (bboxSize b).2.2) ∧
      (b.p1.1 < b.center.1 ∧ b.center.1 < b.p2.1) ∧
      (b.p1.2.1 < b.center.2.1 ∧ b.center.2.1 < b.p2.2.1) ∧
      (b.p1.2.2 < b.center.2.2 ∧ b.center.2.2 < b.p2.2.2) ∧
      (bboxVertices b).length = 8 ∧
      ∀ w ∈ bboxVertices b,
        (b.p1.1 ≤ w.1 ∧ w.1 ≤ b.p2.1) ∧
        (b.p1.2.2 ≤ w.2.1 ∧ w.2.1 ≤ b.p2.2.2) ∧
        (b.p1.2.1 ≤ w.2.2 ∧ w.2.2 ≤ b.p2.2.1)) := by
  have hself : ∀ a : ℚ, allcloseQ a a = true := by
    intro a
    unfold allcloseQ npAtol npRtol
    rw [decide_eq_true_eq, sub_self, abs_zero]
    positivity
  refine ⟨?_, ?_, ?_⟩
  · intro h
    subst h
    unfold mkBBox
    rw [if_pos]
    unfold allclose3
    rw [hself, hself, hself]
    rfl
  · intro h
    by_cases hac : allclose3 p1 p2 = true
    · exact ⟨.zeroSize, by unfold mkBBox; rw [if_pos hac]⟩
    · refine ⟨.badOrder, ?_⟩
      have hlt : ltAll3 p1 p2 = false := by
        unfold ltAll3
        rcases h with h | h | h
        · rw [decide_eq_false (not_lt.mpr h)]
          simp
        · rw [decide_eq_false (not_lt.mpr h)]
          simp
        · rw [decide_eq_false (not_lt.mpr h)]
          simp
      unfold mkBBox
      rw [if_neg (by simp [hac]), if_pos (by simp [hlt])]
  · intro b hb
    unfold mkBBox at hb
    split_ifs at hb with h1 h2
    have hlt : ltAll3 p1 p2 = true := by
      revert h2
      cases ltAll3 p1 p2 <;> simp
    unfold ltAll3 at hlt
    simp only [Bool.and_eq_true, decide_eq_true_eq] at hlt
    have hx : p1.1 < p2.1 := hlt.1.1
    have hy : p1.2.1 < p2.2.1 := hlt.1.2
    have hz : p1.2.2 < p2.2.2 := hlt.2
    injection hb with hb
    subst hb
    refine ⟨rfl, rfl, ⟨hx, hy, hz⟩, ?_, ?_, ?_, ?_, rfl, ?_⟩
    · exact ⟨by show (0 : ℚ) < p2.1 - p1.1; linarith,
             by show (0 : ℚ) < p2.2.1 - p1.2.1; linarith,
             by show (0 : ℚ) < p2.2.2 - p1.2.2; linarith⟩
    · exact ⟨by show p1.1 < (p1.1 + p2.1) / 2; linarith,
             by show (p1.1 + p2.1) / 2 < p2.1; linarith⟩
    · exact ⟨by show p1.2.1 < (p1.2.1 + p2.2.1) / 2; linarith,
             by show (p1.2.1 + p2.2.1) / 2 < p2.2.1; linarith⟩
    · exact ⟨by show p1.2.2 < (p1.2.2 + p2.2.2) / 2; linarith,
             by show (p1.2.2 + p2.2.2) / 2 < p2.2.2; linarith⟩
    · intro w hw
      simp only [bboxVertices, List.mem_cons, List.not_mem_nil, or_false] at hw
      rcases hw with rfl | rfl | rfl | rfl | rfl | rfl | rfl | rfl <;>
        refine ⟨⟨?_, ?_⟩, ⟨?_, ?_⟩, ⟨?_, ?_⟩⟩ <;>
        first
          | exact le_refl _
          | exact le_of_lt hx
          | exact le_of_lt hy
          | exact le_of_lt hz

/-- C8 witness: the theorem applied at `p1 = (0,0,0)`, `p2 = (1,2,3)`,
discharging the `.ok` hypothesis by evaluation. -/
theorem bbox_rejects_degenerate_witness :
    ((0, 0, 0) : Vec3) = (0, 0, 0) ∧
    mkBBox (0, 0, 0) (0, 0, 0) = .error .zeroSize ∧
    ((1 : ℚ) ≤ 0 ∨ (2 : ℚ) ≤ 5 ∨ (3 : ℚ) ≤ 0) ∧
    (∃ e, mkBBox ((0, 5, 0) : Vec3) ((1, 2, 3) : Vec3) = .error e) ∧
    (mkBBox ((0, 0, 0) : Vec3) ((1, 2, 3) : Vec3) =
      .ok { p1 := (0, 0, 0), p2 := (1, 2, 3), center := (1/2, 1, 3/2) }) ∧
    ({ p1 := ((0, 0, 0) : Vec3), p2 := ((1, 2, 3) : Vec3),
       center := ((1/2, 1, 3/2) : Vec3) } : BBox).p1.1 <
      ({ p1 := ((0, 0, 0) : Vec3), p2 := ((1, 2, 3) : Vec3),
         center := ((1/2, 1, 3/2) : Vec3) } : BBox).p2.1 :=
  ⟨rfl,
   (bbox_rejects_degenerate_and_keeps_invariant (0, 0, 0) (0, 0, 0)).1 rfl,
   Or.inr (Or.inl (by norm_num)),
   (bbox_rejects_degenerate_and_keeps_invariant (0, 5, 0) (1, 2, 3)).2.1
     (Or.inr (Or.inl (by norm_num))),
   by with_unfolding_all decide,
   ((bbox_rejects_degenerate_and_keeps_invariant (0, 0, 0) (1, 2, 3)).2.2
     _ (by with_unfolding_all decide)).2.2.1.1⟩

theorem le3_trans {a b c : Vec3} (h1 : le3 a b) (h2 : le3 b c) : le3 a c :=
  ⟨h1.1.trans h2.1, h1.2.1.trans h2.2.1, h1.2.2.trans h2.2.2⟩

theorem min3_le_left (a b : Vec3) : le3 (min3 a b) a :=
  ⟨min_le_left _ _, min_le_left _ _, min_le_left _ _⟩

theorem min3_le_right (a b : Vec3) : le3 (min3 a b) b :=
  ⟨min_le_right _ _, min_le_right _ _, min_le_right _ _⟩

theorem left_le_max3 (a b : Vec3) : le3 a (max3 a b) :=
  ⟨le_max_left _ _, le_max_left _ _, le_max_left _ _⟩

theorem right_le_max3 (a b : Vec3) : le3 b (max3 a b) :=
  ⟨le_max_right _ _, le_max_right _ _, le_max_right _ _⟩

theorem foldl_min3_le_init : ∀ (vs : List Vec3) (a : Vec3),
    le3 (npMinList a vs) a := by
  intro vs
  induction vs with
  | nil => exact fun a => ⟨le_refl _, le_refl _, le_refl _⟩
  | cons u vs ih =>
    intro a
    exact le3_trans (ih (min3 a u)) (min3_le_left a u)

theorem foldl_min3_le_mem : ∀ (vs : List Vec3) (a w : Vec3), w ∈ vs →
    le3 (npMinList a vs) w := by
  intro vs
  induction vs with
  | nil => intro a w hw; cases hw
  | cons u vs ih =>
    intro a w hw
    rcases List.mem_cons.mp hw with rfl | hw
    · exact le3_trans (foldl_min3_le_init vs (min3 a w)) (min3_le_right a w)
    · exact ih (min3 a u) w hw

theorem foldl_max3_ge_init : ∀ (vs : List Vec3) (a : Vec3),
    le3 a (npMaxList a vs) := by
  intro vs
  induction vs with
  | nil => exact fun a => ⟨le_refl _, le_refl _, le_refl _⟩
  | cons u vs ih =>
    intro a
    exact le3_trans (left_le_max3 a u) (ih (max3 a u))

theorem foldl_max3_ge_mem : ∀ (vs : List Vec3) (a w : Vec3), w ∈ vs →
    le3 w (npMaxList a vs) := by
  intro vs
  induction vs with
  | nil => intro a w hw; cases hw
  | cons u vs ih =>
    intro a w hw
    rcases List.mem_cons.mp hw with rfl | hw
    · exact le3_trans (right_le_max3 a w) (foldl_max3_ge_init vs (max3 a w))
    · exact ih (max3 a u) w hw

/-- C10: `BBox.fromVertices(vertices, m)` never applies the transform `m`
(the body never reads it), so the result is identical with and without `m`,
and a successful result is the bounding box of the *untransformed*
vertices: `p1` the componentwise minimum, `p2` the componentwise maximum,
bounding every input vertex. -/
theorem fromVertices_ignores_transform (v : Vec3) (vs : List Vec3) (m : Mat4) :
    fromVertices (v :: vs) (some m) = fromVertices (v :: vs) none ∧
    ∀ b, fromVertices (v :: vs) (some m) = .ok b →
      b.p1 = npMinList v vs ∧ b.p2 = npMaxList v vs ∧
      ∀ w ∈ v :: vs, le3 b.p1 w ∧ le3 w b.p2 := by
  refine ⟨rfl, ?_⟩
  intro b hb
  have hfv : fromVertices (v :: vs) (some m) =
      mkBBox (npMinList v vs) (npMaxList v vs) := rfl
  rw [hfv] at hb
  unfold mkBBox at hb
  split_ifs at hb with h1 h2
  injection hb with hb
  subst hb
  refine ⟨rfl, rfl, ?_⟩
  intro w hw
  rcases List.mem_cons.mp hw with rfl | hw
  · exact ⟨foldl_min3_le_init vs w, foldl_max3_ge_init vs w⟩
  · exact ⟨foldl_min3_le_mem vs v w hw, foldl_max3_ge_mem vs v w hw⟩

/-- C10 witness: two concrete vertices and a concrete transform. -/
theorem fromVertices_ignores_transform_witness :
    fromVertices [((0, 2, 0) : Vec3), (1, 0, 3)] (some fun _ _ => 7) =
      fromVertices [((0, 2, 0) : Vec3), (1, 0, 3)] none ∧
    ((fromVertices [((0, 2, 0) : Vec3), (1, 0, 3)] (some fun _ _ => 7) =
        .ok { p1 := (0, 0, 0), p2 := (1, 2, 3), center := (1/2, 1, 3/2) }) →
      ({ p1 := ((0, 0, 0) : Vec3), p2 := ((1, 2, 3) : Vec3),
         center := ((1/2, 1, 3/2) : Vec3) } : BBox).p1 = npMinList (0, 2, 0) [(1, 0, 3)]) :=
  ⟨(fromVertices_ignores_transform (0, 2, 0) [(1, 0, 3)] (fun _ _ => 7)).1,
   fun h =>
     ((fromVertices_ignores_transform (0, 2, 0) [(1, 0, 3)] (fun _ _ => 7)).2
       _ h).1⟩

/-- C1 counterexample: the profile `[(0,0), (1,1), (1,1)]` contains the
zero-length line segment `(1,1) → (1,1)`, yet the build raises no error:
it completes with two patches appended and a non-empty normals buffer — a
degenerate mesh is produced instead of a fail-fast structural error. -/
theorem zero_length_segment_builds_without_error :
    okPatches (buildRevolvedMesh testPrims
      [.point 0 0, .point 1 1, .point 1 1] false) = some 2 ∧
    okNormals (buildRevolvedMesh testPrims
      [.point 0 0, .point 1 1, .point 1 1] false) ≠ some [] := by
  constructor <;> with_unfolding_all decide

/-- C1 amended: `addProfile` performs no structural validation.  A profile
with a zero-length segment (and likewise one not starting with a point) is
tessellated without any error, mutating the mesh and producing a
(degenerate) mesh.  Only the empty profile raises: `profile[0]` raises
IndexError when `close=True`, and with `close=False` the final
`BBox.fromVertices` raises numpy's ValueError on the empty vertex set —
incidental errors, though they do occur before any patch is built. -/
theorem addProfile_no_structural_validation (p : Prims) :
    buildRevolvedMesh p [] true = .error .indexError ∧
    buildRevolvedMesh p [] false = .error (.bboxError .emptyValueError) ∧
    okPatches (buildRevolvedMesh testPrims
      [.point 0 0, .point 1 1, .point 1 1] false) = some 2 := by
  refine ⟨rfl, rfl, ?_⟩
  with_unfolding_all decide

/-- C9 counterexample: the zero-length segment `(1,1) → (1,1)` (accepted —
see C1) revolves into triangles with repeated vertices, whose
`QVector3D.normal` is the null vector; the build completes with `(0,0,0)`
entries in the normals buffer, which are not of magnitude 1 within 1e-6.
`qtDegenPrims` agrees with Qt's primitives on exactly these degenerate
inputs. -/
theorem build_with_zero_normals_completes :
    ((0, 0, 0) : Vec3) ∈ (okNormals (buildRevolvedMesh qtDegenPrims
      [.point 0 0, .point 1 1, .point 1 1] false)).getD [] ∧
    ¬ unitWithin ((0, 0, 0) : Vec3) ∧
    okPatches (buildRevolvedMesh qtDegenPrims
      [.point 0 0, .point 1 1, .point 1 1] false) = some 2 := by
  refine ⟨?_, ?_, ?_⟩ <;> with_unfolding_all decide

theorem apexFlag_eq (x1 y1 y2 : ℚ) (w : Vec3) :
    decide ((if allcloseQ y1 y2 then none else some ((x1, y1, 0) : Vec3)) = some w)
      = (!allcloseQ y1 y2 && decide (((x1, y1, 0) : Vec3) = w)) := by
  cases hyy : allcloseQ y1 y2
  · rw [if_neg (by simp [hyy])]
    simp
  · rw [if_pos (by simp [hyy])]
    simp

theorem tipFold_submits (p : Prims) (x1 y1 y2 : ℚ)
    (f : PatchState × MeshState → ((ℚ × ℚ) × (ℚ × ℚ)) → Vec3)
    (g : PatchState × MeshState → ((ℚ × ℚ) × (ℚ × ℚ)) → Vec3) :
    ∀ (l : List ((ℚ × ℚ) × (ℚ × ℚ))) (acc : PatchState × MeshState),
      ∃ new,
        (l.foldl (fun acc sc => addTri p acc.1 acc.2 (x1, y1, 0) (f acc sc)
            (g acc sc)
            (if allcloseQ y1 y2 then none else some ((x1, y1, 0) : Vec3))) acc
          ).2.submits = acc.2.submits ++ new ∧
        ∀ vb ∈ new,
          vb.2 = (!allcloseQ y1 y2 && decide (((x1, y1, 0) : Vec3) = vb.1)) := by
  intro l
  induction l with
  | nil => exact fun acc => ⟨[], by simp, fun vb h => absurd h (List.not_mem_nil _)⟩
  | cons sc l ih =>
    intro acc
    obtain ⟨new, hnew, hP⟩ := ih
      (addTri p acc.1 acc.2 (x1, y1, 0) (f acc sc) (g acc sc)
        (if allcloseQ y1 y2 then none else some ((x1, y1, 0) : Vec3)))
    refine ⟨[((x1, y1, 0),
        decide ((if allcloseQ y1 y2 then none else some ((x1, y1, 0) : Vec3))
          = some ((x1, y1, 0) : Vec3))),
      (f acc sc,
        decide ((if allcloseQ y1 y2 then none else some ((x1, y1, 0) : Vec3))
          = some (f acc sc))),
      (g acc sc,
        decide ((if allcloseQ y1 y2 then none else some ((x1, y1, 0) : Vec3))
          = some (g acc sc)))] ++ new, ?_, ?_⟩
    · rw [List.foldl_cons, hnew, addTri_submits]
      simp
    · intro vb hvb
      rcases List.mem_append.mp hvb with hvb | hvb
      · simp only [List.mem_cons, List.not_mem_nil, or_false] at hvb
        rcases hvb with rfl | rfl | rfl <;> exact apexFlag_eq x1 y1 y2 _
      · exact hP vb hvb

/-- C3 counterexample: `addRevLineSeg(0, 0, 1, 0)` — the cone-tip case
(`x1 == 0`) with equal Z-heights (`y1 == y2`, a flat end-cap).  The claim
says the on-axis vertex is submitted with the apex flag in this sub-case
too, but the source passes `apexVertex = None` when `np.allclose(y1, y2)`:
the on-axis vertex `(0,0,0)` is submitted with the apex flag `False` (and
never with `True`), so it goes through the ordinary welding search. -/
theorem flat_end_cap_not_flagged_apex :
    (((0, 0, 0) : Vec3), false) ∈
      (addRevLineSeg testPrims ⟨0, [], 0⟩ initMesh 0 0 1 0).2.submits ∧
    (((0, 0, 0) : Vec3), true) ∉
      (addRevLineSeg testPrims ⟨0, [], 0⟩ initMesh 0 0 1 0).2.submits := by
  constructor <;> with_unfolding_all decide

/-- C3 amended: in the cone-tip case (`np.allclose(x1, 0)`), a vertex is
submitted with the apex flag set if and only if the two Z-heights are NOT
`np.allclose` AND the vertex is the on-axis point `(x1, y1, 0)` — the
source passes `None if np.allclose(y1, y2) else a` as `apexVertex`, so the
flat end-cap sub-case (`y1 == y2`) welds its on-axis vertex like any
other; only the true cone tip bypasses welding. -/
theorem tip_apex_flag_only_when_heights_differ (p : Prims) (ps : PatchState)
    (ms : MeshState) (x1 y1 x2 y2 : ℚ) (h : allcloseQ x1 0 = true) :
    ∃ new, (addRevLineSeg p ps ms x1 y1 x2 y2).2.submits =
        ms.submits ++ new ∧
      ∀ vb ∈ new,
        vb.2 = (!allcloseQ y1 y2 && decide (((x1, y1, 0) : Vec3) = vb.1)) := by
  unfold addRevLineSeg
  dsimp only
  rw [if_pos h]
  exact tipFold_submits p x1 y1 y2 _ _ p.sincos _

/-- C3 witness: the cone-tip case at `x1 = 0, y1 = 0, x2 = 1, y2 = 1`. -/
theorem tip_apex_flag_witness :
    allcloseQ 0 0 = true ∧
    ∃ new, (addRevLineSeg testPrims ⟨0, [], 0⟩ initMesh 0 0 1 1).2.submits =
        initMesh.submits ++ new ∧
      ∀ vb ∈ new,
        vb.2 = (!allcloseQ 0 1 && decide (((0, 0, 0) : Vec3) = vb.1)) :=
  ⟨by with_unfolding_all decide,
   tip_apex_flag_only_when_heights_differ testPrims ⟨0, [], 0⟩ initMesh 0 0 1 1
     (by with_unfolding_all decide)⟩

theorem getLast?_cons_eq {α : Type} (a : α) (l : List α) :
    (a :: l).getLast? = some (l.getLastD a) := by
  induction l generalizing a with
  | nil => rfl
  | cons b l ih => rw [List.getLast?_cons_cons, ih, List.getLastD_cons]

/-- C7 counterexample: a profile ending in an arc whose endpoint `(0, 2)`
is already ON the axis.  The claim says an on-axis end is left unchanged,
but the Python 2 comparison `e2[0] != 0.0` puts the arc's endpoint *tuple*
against the float `0.0`, which is always unequal, so the synthetic point
`(0.0, 2.0)` is appended anyway (creating a zero-length closing segment). -/
theorem close_appends_for_on_axis_arc_end :
    closeProfile [.point 0 0, .point 1 0, .arc (0, 2) (1, 2) true] =
      .ok [.point 0 0, .point 1 0, .arc (0, 2) (1, 2) true, .point 0 2] ∧
    ([.point 0 0, .point 1 0, .arc (0, 2) (1, 2) true, .point 0 2] :
        List PElem) ≠
      [.point 0 0, .point 1 0, .arc (0, 2) (1, 2) true] := by
  constructor <;> with_unfolding_all decide

/-- C7 amended: for a profile starting with a point (the spec's profile
grammar), `close=True` preprocessing prepends `(0, y)` exactly when the
start `(x, y)` is off-axis, and appends a synthetic on-axis point at the
end as follows: a *point* end `(x2, y2)` gets `(0, y2)` exactly when
`x2 != 0`, but an *arc* end always gets `(0, arc-endpoint-Z)` — even when
the arc's endpoint is already on the axis — because the Python 2 test
`e2[0] != 0.0` compares a tuple with a float and is always true. -/
theorem closeProfile_point_headed (x y : ℚ) (rest : List PElem) :
    closeProfile (PElem.point x y :: rest) =
      .ok ((if x = 0 then [] else [PElem.point 0 y]) ++
        (PElem.point x y :: rest) ++
        (match rest.getLastD (PElem.point x y) with
         | .point x2 y2 => if x2 = 0 then [] else [.point 0 y2]
         | .arc ep _ _ => [.point 0 ep.2])) := by
  unfold closeProfile
  dsimp only
  by_cases hx : x = 0
  · rw [if_neg (not_not_intro hx), if_pos hx, getLast?_cons_eq]
    try dsimp only
    cases hlast : rest.getLastD (PElem.point x y) with
    | point x2 y2 =>
      try dsimp only
      by_cases hx2 : x2 = 0
      · rw [if_neg (not_not_intro hx2), if_pos hx2]
        simp
      · rw [if_pos hx2, if_neg hx2]
        simp
    | arc ep ctr d =>
      try dsimp only
      simp
  · rw [if_pos hx, if_neg hx, getLast?_cons_eq, List.getLastD_cons]
    try dsimp only
    cases hlast : rest.getLastD (PElem.point x y) with
    | point x2 y2 =>
      try dsimp only
      by_cases hx2 : x2 = 0
      · rw [if_neg (not_not_intro hx2), if_pos hx2]
        simp
      · rw [if_pos hx2, if_neg hx2]
        simp
    | arc ep ctr d =>
      try dsimp only
      simp

theorem weldLoop_some_spec (verts : List Vec3) (v : Vec3) :
    ∀ (fuel i j : ℕ), fuel ≤ i + 1 → weldLoop verts v fuel i = some j →
      i + 1 - fuel ≤ j ∧ j ≤ i ∧
      verticesEqual (verts.getD j (0, 0, 0)) v = true ∧
      ∀ k, j < k → k ≤ i → verticesEqual (verts.getD k (0, 0, 0)) v = false := by
  intro fuel
  induction fuel with
  | zero =>
    intro i j _ h
    rw [weldLoop] at h
    exact Option.noConfusion h
  | succ fuel ih =>
    intro i j hfi h
    rw [weldLoop] at h
    by_cases hv : verticesEqual (verts.getD i (0, 0, 0)) v = true
    · rw [if_pos hv] at h
      injection h with h
      subst h
      exact ⟨by omega, le_refl _, hv,
        fun k hk1 hk2 => absurd (lt_of_lt_of_le hk1 hk2) (lt_irrefl _)⟩
    · rw [if_neg hv] at h
      obtain ⟨h1, h2, h3, h4⟩ := ih (i - 1) j (by omega) h
      refine ⟨by omega, by omega, h3, ?_⟩
      intro k hk1 hk2
      by_cases hki : k = i
      · subst hki
        exact Bool.eq_false_iff.mpr hv
      · exact h4 k hk1 (by omega)

theorem weldLoop_none_spec (verts : List Vec3) (v : Vec3) :
    ∀ (fuel i : ℕ), weldLoop verts v fuel i = none →
      ∀ k, i + 1 - fuel ≤ k → k ≤ i →
        verticesEqual (verts.getD k (0, 0, 0)) v = false := by
  intro fuel
  induction fuel with
  | zero =>
    intro i _ k hk1 hk2
    omega
  | succ fuel ih =>
    intro i h k hk1 hk2
    rw [weldLoop] at h
    by_cases hv : verticesEqual (verts.getD i (0, 0, 0)) v = true
    · rw [if_pos hv] at h
      exact Option.noConfusion h
    · rw [if_neg hv] at h
      by_cases hki : k = i
      · subst hki
        exact Bool.eq_false_iff.mpr hv
      · exact ih (i - 1) h k (by omega) (by omega)

/-- C2: full characterization of a non-apex `Mesh.addVertex` call.  With
`searchFloor = min(patchStartIndex, prevPatchStartIndex)`, either there is
a greatest (i.e. most recently added) index `j` in `[searchFloor,
nVertices)` whose stored position is `verticesEqual` to `v` (componentwise
within the absolute epsilon 1e-8) — then no vertex is appended, the stored
normal at `j` is replaced by the Qt-renormalized sum of itself and `n`,
and `j` is returned — or no index in the window matches, and `v`/`n` are
appended with the new index returned. -/
theorem addVertex_weld_spec (p : Prims) (s : MeshState) (v n : Vec3)
    (si : ℕ) :
    (∃ j, min si s.prevPatchStart ≤ j ∧ j < s.nVertices ∧
        verticesEqual (s.vertices.getD j (0, 0, 0)) v = true ∧
        (∀ k, j < k → k < s.nVertices →
          verticesEqual (s.vertices.getD k (0, 0, 0)) v = false) ∧
        (addVertex p s v n si false).2 = j ∧
        (addVertex p s v n si false).1.vertices = s.vertices ∧
        (addVertex p s v n si false).1.normals =
          s.normals.set j (p.nrm (add3 (s.normals.getD j (0, 0, 0)) n)) ∧
        (addVertex p s v n si false).1.nVertices = s.nVertices) ∨
    ((∀ k, min si s.prevPatchStart ≤ k → k < s.nVertices →
        verticesEqual (s.vertices.getD k (0, 0, 0)) v = false) ∧
      (addVertex p s v n si false).1.vertices = s.vertices ++ [v] ∧
      (addVertex p s v n si false).1.normals = s.normals ++ [n] ∧
      (addVertex p s v n si false).2 = s.nVertices ∧
      (addVertex p s v n si false).1.nVertices = s.nVertices + 1) := by
  unfold addVertex
  dsimp only
  rw [if_neg Bool.false_ne_true]
  cases hW : weldLoop s.vertices v
      (s.nVertices - min si s.prevPatchStart) (s.nVertices - 1) with
  | some j =>
    left
    have hfpos : s.nVertices - min si s.prevPatchStart ≠ 0 := by
      intro h0
      rw [h0, weldLoop] at hW
      exact Option.noConfusion hW
    obtain ⟨h1, h2, h3, h4⟩ := weldLoop_some_spec s.vertices v
      (s.nVertices - min si s.prevPatchStart) (s.nVertices - 1) j
      (by omega) hW
    refine ⟨j, by omega, by omega, h3, ?_, rfl, rfl, rfl, rfl⟩
    intro k hk1 hk2
    exact h4 k hk1 (by omega)
  | none =>
    right
    refine ⟨?_, rfl, rfl, rfl, rfl⟩
    intro k hk1 hk2
    exact weldLoop_none_spec s.vertices v
      (s.nVertices - min si s.prevPatchStart) (s.nVertices - 1) hW k
      (by omega) (by omega)

theorem foldl_preserve {α σ : Type} (Q : σ → Prop) (f : σ → α → σ)
    (hf : ∀ s a, Q s → Q (f s a)) : ∀ (l : List α) (s : σ),
    Q s → Q (l.foldl f s) := by
  intro l
  induction l with
  | nil => exact fun s h => h
  | cons x xs ih => exact fun s h => ih (f s x) (hf s x h)

theorem addVertex_normals_unit (p : Prims) (s : MeshState) (v n : Vec3)
    (si : ℕ) (apex : Bool) (hs : ∀ x ∈ s.normals, normSq3 x = 1)
    (hn : normSq3 n = 1) (h2 : ∀ w, normSq3 (p.nrm w) = 1) :
    ∀ x ∈ (addVertex p s v n si apex).1.normals, normSq3 x = 1 := by
  unfold addVertex
  dsimp only
  split
  · intro x hx
    rcases List.mem_append.mp hx with hx | hx
    · exact hs x hx
    · simp only [List.mem_cons, List.not_mem_nil, or_false] at hx
      subst hx
      exact hn
  · cases hW : weldLoop s.vertices v
        (s.nVertices - min si s.prevPatchStart) (s.nVertices - 1) with
    | some j =>
      intro x hx
      rcases List.mem_or_eq_of_mem_set hx with hx | rfl
      · exact hs x hx
      · exact h2 _
    | none =>
      intro x hx
      rcases List.mem_append.mp hx with hx | hx
      · exact hs x hx
      · simp only [List.mem_cons, List.not_mem_nil, or_false] at hx
        subst hx
        exact hn

theorem addTri_normals_unit (p : Prims) (ps : PatchState) (ms : MeshState)
    (a b c : Vec3) (apx : Option Vec3)
    (h1 : ∀ a b c, normSq3 (p.triNormal a b c) = 1)
    (h2 : ∀ w, normSq3 (p.nrm w) = 1)
    (hs : ∀ x ∈ ms.normals, normSq3 x = 1) :
    ∀ x ∈ (addTri p ps ms a b c apx).2.normals, normSq3 x = 1 := by
  unfold addTri
  dsimp only
  exact addVertex_normals_unit p _ _ _ _ _
    (addVertex_normals_unit p _ _ _ _ _
      (addVertex_normals_unit p _ _ _ _ _ hs (h1 a b c) h2)
      (h1 a b c) h2)
    (h1 a b c) h2

theorem addQuad_normals_unit (p : Prims) (ps : PatchState) (ms : MeshState)
    (a b c d : Vec3)
    (h1 : ∀ a b c, normSq3 (p.triNormal a b c) = 1)
    (h2 : ∀ w, normSq3 (p.nrm w) = 1)
    (hs : ∀ x ∈ ms.normals, normSq3 x = 1) :
    ∀ x ∈ (addQuad p ps ms a b c d).2.normals, normSq3 x = 1 := by
  unfold addQuad
  dsimp only
  exact addTri_normals_unit p _ _ _ _ _ _ h1 h2
    (addTri_normals_unit p _ _ _ _ _ _ h1 h2 hs)

theorem addRevLineSeg_normals_unit (p : Prims) (ps : PatchState)
    (ms : MeshState) (x1 y1 x2 y2 : ℚ)
    (h1 : ∀ a b c, normSq3 (p.triNormal a b c) = 1)
    (h2 : ∀ w, normSq3 (p.nrm w) = 1)
    (hs : ∀ x ∈ ms.normals, normSq3 x = 1) :
    ∀ x ∈ (addRevLineSeg p ps ms x1 y1 x2 y2).2.normals, normSq3 x = 1 := by
  unfold addRevLineSeg
  dsimp only
  split_ifs <;>
    first
      | exact foldl_preserve
          (fun acc : PatchState × MeshState => ∀ x ∈ acc.2.normals, normSq3 x = 1)
          _ (fun s a hq => addTri_normals_unit p _ _ _ _ _ _ h1 h2 hq) _ _ hs
      | exact foldl_preserve
          (fun acc : PatchState × MeshState => ∀ x ∈ acc.2.normals, normSq3 x = 1)
          _ (fun s a hq => addQuad_normals_unit p _ _ _ _ _ _ h1 h2 hq) _ _ hs

theorem blendTangent_normals (ms : MeshState) (b : Bool) :
    (blendTangent ms b).normals = ms.normals := by
  unfold blendTangent
  dsimp only
  split <;> rfl

theorem arcStep_normals_unit (p : Prims) (cx cy r sa step : ℚ)
    (st : (ℚ × ℚ) × PatchState × MeshState) (i : ℕ)
    (h1 : ∀ a b c, normSq3 (p.triNormal a b c) = 1)
    (h2 : ∀ w, normSq3 (p.nrm w) = 1)
    (hs : ∀ x ∈ st.2.2.normals, normSq3 x = 1) :
    ∀ x ∈ (arcStep p cx cy r sa step st i).2.2.normals, normSq3 x = 1 := by
  unfold arcStep
  dsimp only
  split
  · rw [blendTangent_normals]
    exact addRevLineSeg_normals_unit p _ _ _ _ _ _ h1 h2 hs
  · exact addRevLineSeg_normals_unit p _ _ _ _ _ _ h1 h2 hs

theorem addRevArcSeg_normals_unit (p : Prims) (ps : PatchState)
    (ms : MeshState) (x1 y1 x2 y2 cx cy : ℚ) (d : Bool)
    (h1 : ∀ a b c, normSq3 (p.triNormal a b c) = 1)
    (h2 : ∀ w, normSq3 (p.nrm w) = 1)
    (hs : ∀ x ∈ ms.normals, normSq3 x = 1) :
    ∀ x ∈ (addRevArcSeg p ps ms x1 y1 x2 y2 cx cy d).2.normals,
      normSq3 x = 1 := by
  unfold addRevArcSeg
  dsimp only
  apply addRevLineSeg_normals_unit p _ _ _ _ _ _ h1 h2
  exact foldl_preserve
    (fun st : (ℚ × ℚ) × PatchState × MeshState =>
      ∀ x ∈ st.2.2.normals, normSq3 x = 1)
    _ (fun st i hq => arcStep_normals_unit p _ _ _ _ _ st i h1 h2 hq) _ _ hs

theorem traverse_normals_unit (p : Prims)
    (h1 : ∀ a b c, normSq3 (p.triNormal a b c) = 1)
    (h2 : ∀ w, normSq3 (p.nrm w) = 1) :
    ∀ (l : List (PElem × PElem)) (ms : MeshState) (pxy : Option Vec2),
      (∀ x ∈ ms.normals, normSq3 x = 1) →
      ∀ x ∈ (traverse p ms pxy l).normals, normSq3 x = 1 := by
  intro l
  induction l with
  | nil => exact fun ms pxy h => h
  | cons pr l ih =>
    intro ms pxy h
    obtain ⟨e1, e2⟩ := pr
    cases e1 with
    | point x1 y1 =>
      cases e2 with
      | point x2 y2 =>
        apply ih
        intro x hx
        exact addRevLineSeg_normals_unit p _ _ _ _ _ _ h1 h2
          (by rw [blendTangent_normals]; exact h) x hx
      | arc ep ctr dd =>
        apply ih
        intro x hx
        cases pxy with
        | some pq =>
          exact addRevArcSeg_normals_unit p _ _ _ _ _ _ _ _ _ h1 h2
            (by rw [blendTangent_normals]; exact h) x hx
        | none =>
          exact addRevArcSeg_normals_unit p _ _ _ _ _ _ _ _ _ h1 h2 h x hx
    | arc ep ctr dd =>
      cases e2 with
      | point x2 y2 =>
        apply ih
        intro x hx
        exact addRevLineSeg_normals_unit p _ _ _ _ _ _ h1 h2
          (by rw [blendTangent_normals]; exact h) x hx
      | arc ep2 ctr2 d2 =>
        apply ih
        intro x hx
        exact addRevArcSeg_normals_unit p _ _ _ _ _ _ _ _ _ h1 h2
          (by rw [blendTangent_normals]; exact h) x hx

/-- C9 amended: every entry of the normals buffer after a build is either
a `QVector3D.normal` face normal or a Qt-renormalized welded sum; under
the hypothesis that those two primitives always return unit vectors (true
of Qt exactly when no triangle is degenerate and no welded sum vanishes),
every stored normal has squared norm exactly 1 — in particular magnitude 1
within 1e-6.  Qt actually returns the null vector for degenerate
triangles, and such profiles are not rejected, so the unconditional claim
fails (see the counterexample). -/
theorem build_normals_unit_under_unit_prims (p : Prims)
    (h1 : ∀ a b c, normSq3 (p.triNormal a b c) = 1)
    (h2 : ∀ w, normSq3 (p.nrm w) = 1) (profile : List PElem) :
    ∀ x ∈ (traverse p initMesh none (pairsOf profile)).normals,
      normSq3 x = 1 ∧ unitWithin x := by
  intro x hx
  have hP := traverse_normals_unit p h1 h2 (pairsOf profile) initMesh none
    (by intro y hy; exact absurd hy (List.not_mem_nil _)) x hx
  refine ⟨hP, ?_, ?_⟩ <;> rw [hP] <;> norm_num

/-- C9 witness: the idealized primitives (`triNormal` and `nrm` constantly
a unit vector) on the cone profile `[(0,0), (1,1)]`. -/
theorem build_normals_unit_witness :
    (∀ a b c : Vec3, normSq3 (unitPrims.triNormal a b c) = 1) ∧
    (∀ w, normSq3 (unitPrims.nrm w) = 1) ∧
    ∀ x ∈ (traverse unitPrims initMesh none
        (pairsOf [PElem.point 0 0, PElem.point 1 1])).normals,
      normSq3 x = 1 ∧ unitWithin x :=
  have H1 : ∀ a b c : Vec3, normSq3 (unitPrims.triNormal a b c) = 1 :=
    fun a b c => by
      show normSq3 ((1 : ℚ), (0 : ℚ), (0 : ℚ)) = 1
      with_unfolding_all decide
  have H2 : ∀ w : Vec3, normSq3 (unitPrims.nrm w) = 1 :=
    fun w => by
      show normSq3 ((1 : ℚ), (0 : ℚ), (0 : ℚ)) = 1
      with_unfolding_all decide
  ⟨H1, H2, build_normals_unit_under_unit_prims unitPrims H1 H2
    [PElem.point 0 0, PElem.point 1 1]⟩

end MT
